import Mathlib

/-!
Verification of the tabular loading and splitting utility in
src/fraudclf/data_fetcher.py (class DataFetcher).

The embedding is shallow:
* a pandas DataFrame becomes a `Table`: an explicit row count together with an
  ordered list of named columns (pandas keeps the row count in the index, so a
  table with zero columns still has a row count);
* column labels (`ColName`) are either positional integers (produced when the
  CSV is read with header=None) or strings (produced from a header row);
* cell values stay as the raw cell strings — no claim depends on dtype
  inference;
* the file system at call time is a `ReadOutcome`: the file is missing, the
  read/parse fails with some exception, or it parses to rectangular rows;
* Python exceptions become `Except` errors carrying the structured data that
  the corresponding exception messages interpolate.
-/

namespace FraudClf

/-- Scalar cell value of a loaded table, kept as the raw cell text. -/
abbrev Value := String

/-- A pandas column label: a positional integer (header=None) or a string
(taken from the header row). -/
inductive ColName where
  | nat (i : Nat)
  | str (s : String)
deriving DecidableEq, Repr

/-- In-memory table: explicit row count plus ordered named columns.
pandas keeps the row count in the index, so it survives dropping columns. -/
structure Table where
  nrows : Nat
  columns : List (ColName × List Value)
deriving DecidableEq, Repr

/-- The ordered list of column labels (df.columns). -/
def Table.colNames (t : Table) : List ColName :=
  t.columns.map Prod.fst

/-- Membership test for a column label (the Python test c in df.columns). -/
def Table.hasCol (t : Table) (l : ColName) : Bool :=
  decide (l ∈ t.colNames)

/-- Column access df[l]: the value sequence of the first column labelled l.
pandas raises KeyError when l is absent; inside the split operation this is
only reached when l is present, so the default [] is unreachable there. -/
def Table.getVals (t : Table) (l : ColName) : List Value :=
  ((t.columns.find? fun p => decide (p.1 = l)).map Prod.snd).getD []

/-- Column selection df[[l1, ..., lk]]: a fresh table with the selected
columns, same row count. As with getVals, absent labels only matter on paths
the split operation never reaches. -/
def Table.select (t : Table) (ls : List ColName) : Table :=
  { nrows := t.nrows
    columns := ls.filterMap fun l => t.columns.find? fun p => decide (p.1 = l) }

/-- df.drop(columns=ls): fails (pandas KeyError) when some label is absent,
otherwise removes every column whose label is in ls, preserving the order of
the remaining columns and the row count. -/
def Table.drop (t : Table) (ls : List ColName) : Except (List ColName) Table :=
  let absent := ls.filter fun l => !(t.hasCol l)
  if absent = [] then
    .ok { nrows := t.nrows
          columns := t.columns.filter fun p => !(decide (p.1 ∈ ls)) }
  else
    .error absent

/-- Well-formedness: every column has exactly nrows values. -/
def Table.Wf (t : Table) : Prop :=
  ∀ p ∈ t.columns, p.2.length = t.nrows

/-- The configuration held by a DataFetcher instance: fields set by __init__
and never mutated afterwards. -/
structure DataFetcher where
  csv_path : String
  target_name : Option String := none
  id_column : Option String := none
  has_header : Bool := true
deriving DecidableEq, Repr

/-- Disposition of the file system at the moment load runs: the configured
file is absent, reading or parsing it fails with some underlying exception
(carrying its message), or it parses into rectangular rows of cells. -/
inductive ReadOutcome where
  | notFound
  | failure (msg : String)
  | ok (rows : List (List String))
deriving DecidableEq, Repr

/-- The exception propagating out of _read_csv_file: FileNotFoundError, or
any other exception re-raised unchanged. -/
inductive ReadExc where
  | fileNotFound
  | other (msg : String)
deriving DecidableEq, Repr

/-- The errors get_features_and_target can raise:
ValueError when no target column is configured (line 75),
an exception propagated out of _read_csv_file (line 77),
KeyError listing the missing configured columns and the available columns
(line 84), and the pandas KeyError out of df.drop (line 91, reachable only
with an empty-string target name). -/
inductive FetchError where
  | configError
  | readError (e : ReadExc)
  | missingColumns (missing : List String) (available : List ColName)
  | dropKeyError (labels : List ColName)
deriving DecidableEq, Repr

/-- The second component of the returned pair: a pandas Series (column label
plus values) or a two-column DataFrame. -/
inductive TargetResult where
  | series (name : ColName) (values : List Value)
  | frame (t : Table)
deriving DecidableEq, Repr

/-- Row count of the returned target (len of the Series or DataFrame). -/
def TargetResult.rowCount : TargetResult → Nat
  | .series _ vs => vs.length
  | .frame t => t.nrows

/-- The named columns carried by the returned target. -/
def TargetResult.cols : TargetResult → List (ColName × List Value)
  | .series n vs => [(n, vs)]
  | .frame t => t.columns

/-- pd.read_csv(path, header=h) on successfully tokenized rows:
header = 0 (hasHeader = true): the first row supplies string column names and
the remaining rows are data; header = None: every row is data and columns get
positional integer names 0, 1, ... taken from the width of the first row. -/
def parseCsv (hasHeader : Bool) (rows : List (List String)) : Table :=
  match hasHeader, rows with
  | true, [] => { nrows := 0, columns := [] }
  | true, hdr :: body =>
      { nrows := body.length
        columns := (List.range hdr.length).map fun j =>
          (ColName.str (hdr.getD j ""), body.map fun r => r.getD j "") }
  | false, body =>
      let w := (body.headD []).length
      { nrows := body.length
        columns := (List.range w).map fun j =>
          (ColName.nat j, body.map fun r => r.getD j "") }

/-- The pd.read_csv call itself (line 43): raises FileNotFoundError when the
file is absent, re-raises any other read/parse failure, otherwise returns the
parsed table. -/
def readCsvRaw (hasHeader : Bool) (fs : ReadOutcome) : Except ReadExc Table :=
  match fs with
  | .notFound => .error .fileNotFound
  | .failure m => .error (.other m)
  | .ok rows => .ok (parseCsv hasHeader rows)

/-- DataFetcher._read_csv_file (lines 39-52): wraps the read in try/except
blocks that log and re-raise, so every failure propagates unchanged. -/
def read_csv_file (cfg : DataFetcher) (fs : ReadOutcome) : Except ReadExc Table :=
  match readCsvRaw cfg.has_header fs with
  | .ok df => .ok df
  | .error e => .error e

/-- _read_csv_file as a step on the instance state. The method body assigns
no attribute of self (lines 39-52 only read self.has_header and
self.csv_path), so the state component passes through unchanged. -/
def read_csv_call (s : DataFetcher) (fs : ReadOutcome) :
    DataFetcher × Except ReadExc Table :=
  (s, read_csv_file s fs)

/-- The missing-columns computation (lines 79-81):
[c for c in [target_name, id_column] if c and c not in df.columns].
A candidate is kept when it is not None, not the empty string, and its string
label is absent from the table. -/
def missingCols (target idc : Option String) (cols : List ColName) : List String :=
  ([target, idc].filterMap fun c => c).filter fun c =>
    decide (c ≠ "") && !(decide (ColName.str c ∈ cols))

/-- The drop list (lines 87-89): always the target name, plus the id column
when it is configured, non-empty and present in the table. -/
def dropColsOf (df : Table) (t : String) (idc : Option String) : List ColName :=
  ColName.str t ::
    (match idc with
     | some i => if decide (i ≠ "") && df.hasCol (.str i) then [ColName.str i] else []
     | none => [])

/-- The target construction (lines 93-97): a two-column DataFrame
df[[id_column, target_name]].copy() when the id column is configured
(non-empty: Python truthiness) and include_id_in_target holds, otherwise the
Series df[target_name].copy(). -/
def targetOf (df : Table) (t : String) (idc : Option String) (inc : Bool) :
    TargetResult :=
  match idc, inc with
  | some i, true =>
      if i = "" then .series (.str t) (df.getVals (.str t))
      else .frame (df.select [ColName.str i, ColName.str t])
  | _, _ => .series (.str t) (df.getVals (.str t))

/-- DataFetcher.get_features_and_target (lines 54-100): check that a target
name is configured (is-None test, line 72), read the file, compute the
missing configured columns and fail if any, drop target (and present id)
from the features, and build the target. -/
def get_features_and_target (cfg : DataFetcher) (fs : ReadOutcome)
    (include_id_in_target : Bool) : Except FetchError (Table × TargetResult) :=
  match cfg.target_name with
  | none => .error .configError
  | some t =>
    match read_csv_file cfg fs with
    | .error e => .error (.readError e)
    | .ok df =>
      let missing := missingCols (some t) cfg.id_column df.colNames
      if missing = [] then
        match df.drop (dropColsOf df t cfg.id_column) with
        | .error absent => .error (.dropKeyError absent)
        | .ok features => .ok (features, targetOf df t cfg.id_column include_id_in_target)
      else
        .error (.missingColumns missing df.colNames)

/-! Helper lemmas about the table operations. -/

/-- Every table produced by the CSV parser is well formed: each column holds
exactly one value per data row. -/
theorem parseCsv_wf (h : Bool) (rows : List (List String)) : (parseCsv h rows).Wf := by
  intro p hp
  cases h with
  | false =>
      simp only [parseCsv, List.mem_map, List.mem_range] at hp
      obtain ⟨j, _, rfl⟩ := hp
      simp [parseCsv]
  | true =>
      cases rows with
      | nil => simp [parseCsv] at hp
      | cons hdr body =>
          simp only [parseCsv, List.mem_map, List.mem_range] at hp
          obtain ⟨j, _, rfl⟩ := hp
          simp [parseCsv]

/-- A present label is found by find?, and getVals returns its values. -/
theorem find?_col_eq (t : Table) (l : ColName) (h : l ∈ t.colNames) :
    (t.columns.find? fun p => decide (p.1 = l)) = some (l, t.getVals l) := by
  obtain ⟨p, hp, hfst⟩ := List.mem_map.mp h
  have hsome : (t.columns.find? fun p => decide (p.1 = l)).isSome := by
    rw [List.find?_isSome]
    exact ⟨p, hp, by simp [hfst]⟩
  obtain ⟨q, hq⟩ := Option.isSome_iff_exists.mp hsome
  have hql : q.1 = l := by
    have := List.find?_some hq
    exact of_decide_eq_true this
  have hval : t.getVals l = q.2 := by
    simp [Table.getVals, hq]
  rw [hq, hval, ← hql]

/-- A present label's column is a column of the table. -/
theorem getVals_mem (t : Table) (l : ColName) (h : l ∈ t.colNames) :
    (l, t.getVals l) ∈ t.columns :=
  List.mem_of_find?_eq_some (find?_col_eq t l h)

/-- In a well-formed table, a present column has nrows values. -/
theorem getVals_length (t : Table) (l : ColName) (hwf : t.Wf) (h : l ∈ t.colNames) :
    (t.getVals l).length = t.nrows :=
  hwf _ (getVals_mem t l h)

/-- Every column of a selection is a column of the source table. -/
theorem select_cols_sub (df : Table) (ls : List ColName) :
    ∀ p ∈ (df.select ls).columns, p ∈ df.columns := by
  intro p hp
  simp only [Table.select, List.mem_filterMap] at hp
  obtain ⟨l, _, hfind⟩ := hp
  exact List.mem_of_find?_eq_some hfind

/-- Selecting two present labels yields exactly their two columns. -/
theorem select_pair (df : Table) (a b : ColName)
    (ha : a ∈ df.colNames) (hb : b ∈ df.colNames) :
    df.select [a, b] =
      { nrows := df.nrows
        columns := [(a, df.getVals a), (b, df.getVals b)] } := by
  simp [Table.select, List.filterMap, find?_col_eq df a ha, find?_col_eq df b hb]

/-- Inversion of a successful drop: the row count is preserved, the surviving
columns are the source columns whose label is not dropped (order preserved),
and every dropped label was present. -/
theorem drop_ok_inv {t : Table} {ls : List ColName} {f : Table}
    (h : t.drop ls = .ok f) :
    f.nrows = t.nrows ∧
    f.columns = t.columns.filter (fun p => !(decide (p.1 ∈ ls))) ∧
    ∀ l ∈ ls, l ∈ t.colNames := by
  by_cases habs : (ls.filter fun l => !(t.hasCol l)) = []
  · have hf : f = { nrows := t.nrows
                    columns := t.columns.filter fun p => !(decide (p.1 ∈ ls)) } := by
      simp only [Table.drop, habs, if_pos] at h
      exact (Except.ok.inj h).symm
    subst hf
    refine ⟨rfl, rfl, ?_⟩
    intro l hl
    have := List.filter_eq_nil_iff.mp habs l hl
    simp only [Bool.not_eq_true', Bool.not_eq_false] at this
    exact of_decide_eq_true this
  · simp only [Table.drop, habs, if_neg, if_false] at h
    cases h

/-- A dropped label never survives into the result of a successful drop. -/
theorem drop_not_mem {t : Table} {ls : List ColName} {f : Table}
    (h : t.drop ls = .ok f) : ∀ l ∈ ls, l ∉ f.colNames := by
  obtain ⟨-, hcols, -⟩ := drop_ok_inv h
  intro l hl hmem
  obtain ⟨p, hp, hfst⟩ := List.mem_map.mp hmem
  rw [hcols] at hp
  have := List.of_mem_filter hp
  rw [hfst] at this
  simp [hl] at this

/-- If the missing-columns list is empty, each configured non-empty name is
present in the table. -/
theorem missingCols_eq_nil_inv {target idc : Option String} {cols : List ColName}
    (h : missingCols target idc cols = []) :
    (∀ s, target = some s → s ≠ "" → ColName.str s ∈ cols) ∧
    (∀ s, idc = some s → s ≠ "" → ColName.str s ∈ cols) := by
  rw [missingCols, List.filter_eq_nil_iff] at h
  constructor <;> intro s hse hne
  · have hmem : s ∈ [target, idc].filterMap (fun c => c) := by
      rw [List.mem_filterMap]
      exact ⟨some s, by simp [hse], rfl⟩
    have := h s hmem
    simpa [hne] using this
  · have hmem : s ∈ [target, idc].filterMap (fun c => c) := by
      rw [List.mem_filterMap]
      exact ⟨some s, by simp [hse], rfl⟩
    have := h s hmem
    simpa [hne] using this

/-- A configured, non-empty, absent name lands in the missing-columns list. -/
theorem mem_missingCols {target idc : Option String} {cols : List ColName} {s : String}
    (hc : target = some s ∨ idc = some s) (hne : s ≠ "")
    (habs : ColName.str s ∉ cols) :
    s ∈ missingCols target idc cols := by
  rw [missingCols, List.mem_filter]
  constructor
  · rw [List.mem_filterMap]
    exact ⟨some s, by rcases hc with h | h <;> simp [h], rfl⟩
  · simp [hne, habs]

/-- Inversion of a successful split: the missing-columns check passed, the
features are the result of the drop, and the target is targetOf. -/
theorem split_ok_inv {cfg : DataFetcher} {rows : List (List String)} {inc : Bool}
    {f : Table} {tg : TargetResult} {t : String}
    (ht : cfg.target_name = some t)
    (hs : get_features_and_target cfg (.ok rows) inc = .ok (f, tg)) :
    missingCols (some t) cfg.id_column (parseCsv cfg.has_header rows).colNames = [] ∧
    (parseCsv cfg.has_header rows).drop
      (dropColsOf (parseCsv cfg.has_header rows) t cfg.id_column) = .ok f ∧
    tg = targetOf (parseCsv cfg.has_header rows) t cfg.id_column inc := by
  rw [get_features_and_target, ht] at hs
  simp only [read_csv_file, readCsvRaw] at hs
  by_cases hm :
      missingCols (some t) cfg.id_column (parseCsv cfg.has_header rows).colNames = []
  · rw [if_pos hm] at hs
    cases hd : (parseCsv cfg.has_header rows).drop
        (dropColsOf (parseCsv cfg.has_header rows) t cfg.id_column) with
    | error e => rw [hd] at hs; cases hs
    | ok features =>
        rw [hd] at hs
        obtain ⟨h1, h2⟩ := Prod.mk.injEq .. ▸ Except.ok.inj hs
        refine ⟨hm, ?_, h2.symm⟩
        exact congrArg Except.ok h1
  · rw [if_neg hm] at hs
    cases hs

/-- When the missing-columns check fails, split raises the KeyError carrying
the missing list and the available columns. -/
theorem split_missing_error {cfg : DataFetcher} {rows : List (List String)}
    {inc : Bool} {t : String}
    (ht : cfg.target_name = some t)
    (hm : missingCols (some t) cfg.id_column (parseCsv cfg.has_header rows).colNames ≠ []) :
    get_features_and_target cfg (.ok rows) inc =
      .error (.missingColumns
        (missingCols (some t) cfg.id_column (parseCsv cfg.has_header rows).colNames)
        (parseCsv cfg.has_header rows).colNames) := by
  rw [get_features_and_target, ht]
  simp only [read_csv_file, readCsvRaw]
  rw [if_neg hm]

/-- The constructed target has as many rows as the source table. -/
theorem targetOf_rowCount (df : Table) (t : String) (idc : Option String)
    (inc : Bool) (hwf : df.Wf) (htm : ColName.str t ∈ df.colNames) :
    (targetOf df t idc inc).rowCount = df.nrows := by
  have hser : (TargetResult.series (ColName.str t)
      (df.getVals (ColName.str t))).rowCount = df.nrows :=
    getVals_length df _ hwf htm
  cases idc with
  | none => exact hser
  | some i =>
      cases inc with
      | false => exact hser
      | true =>
          by_cases hi : i = ""
          · simpa [targetOf, hi] using hser
          · simp [targetOf, hi, TargetResult.rowCount, Table.select]

/-- Every column carried by the constructed target is a column of the source
table, so target entries at index i come from row i of the table. -/
theorem targetOf_cols_sub (df : Table) (t : String) (idc : Option String)
    (inc : Bool) (htm : ColName.str t ∈ df.colNames) :
    ∀ p ∈ (targetOf df t idc inc).cols, p ∈ df.columns := by
  have hser : ∀ p ∈ (TargetResult.series (ColName.str t)
      (df.getVals (ColName.str t))).cols, p ∈ df.columns := by
    intro p hp
    simp only [TargetResult.cols, List.mem_singleton] at hp
    exact hp ▸ getVals_mem df _ htm
  cases idc with
  | none => exact hser
  | some i =>
      cases inc with
      | false => exact hser
      | true =>
          by_cases hi : i = ""
          · simpa [targetOf, hi] using hser
          · intro p hp
            simp only [targetOf, hi, if_neg, TargetResult.cols] at hp
            exact select_cols_sub df _ p hp

/-- A label in the drop list is the target's or the configured id's. -/
theorem mem_dropColsOf {df : Table} {t : String} {idc : Option String}
    {l : ColName} (h : l ∈ dropColsOf df t idc) :
    l = ColName.str t ∨ ∃ i, idc = some i ∧ l = ColName.str i := by
  cases idc with
  | none =>
      simp only [dropColsOf, List.mem_singleton] at h
      exact Or.inl h
  | some i =>
      simp only [dropColsOf] at h
      rcases List.mem_cons.mp h with h | h
      · exact Or.inl h
      · by_cases hc : (decide (i ≠ "") && df.hasCol (ColName.str i)) = true
        · rw [if_pos hc, List.mem_singleton] at h
          exact Or.inr ⟨i, rfl, h⟩
        · rw [if_neg hc] at h
          cases h

/-! The claims. -/

/-- Claim C1: for every configuration and every successfully loaded table, the
Features and Target returned by a successful split have row counts equal to
each other and to the loaded Table, and row alignment is preserved: every
column of Features, and every column carried by Target, is literally a column
of the loaded Table, so index i in each of them refers to row i of the Table. -/
theorem c1_row_counts_equal_and_aligned (cfg : DataFetcher)
    (rows : List (List String)) (inc : Bool) (f : Table) (tg : TargetResult)
    (t : String) (ht : cfg.target_name = some t)
    (hs : get_features_and_target cfg (.ok rows) inc = .ok (f, tg)) :
    f.nrows = (parseCsv cfg.has_header rows).nrows ∧
    tg.rowCount = (parseCsv cfg.has_header rows).nrows ∧
    f.nrows = tg.rowCount ∧
    (∀ p ∈ f.columns, p ∈ (parseCsv cfg.has_header rows).columns) ∧
    (∀ p ∈ tg.cols, p ∈ (parseCsv cfg.has_header rows).columns) := by
  obtain ⟨hm, hd, htg⟩ := split_ok_inv ht hs
  obtain ⟨hn, hcols, hpres⟩ := drop_ok_inv hd
  have hwf : (parseCsv cfg.has_header rows).Wf := parseCsv_wf _ _
  have htm : ColName.str t ∈ (parseCsv cfg.has_header rows).colNames :=
    hpres _ (by simp [dropColsOf])
  have hrc : tg.rowCount = (parseCsv cfg.has_header rows).nrows := by
    rw [htg]; exact targetOf_rowCount _ t _ inc hwf htm
  refine ⟨hn, hrc, by rw [hn, hrc], ?_, ?_⟩
  · intro p hp
    rw [hcols] at hp
    exact List.mem_of_mem_filter hp
  · intro p hp
    rw [htg] at hp
    exact targetOf_cols_sub _ t _ inc htm p hp

/-- Fixture for the witnesses of C1-C3: a fetcher for a CSV with columns
id, x, y, target column y, id column id. -/
def cfgW : DataFetcher :=
  { csv_path := "data.csv", target_name := some "y", id_column := some "id" }

/-- Fixture rows: header id, x, y and two data rows. -/
def rowsW : List (List String) :=
  [["id", "x", "y"], ["1", "5", "0"], ["2", "6", "1"]]

/-- Features produced by the fixture split (column x only). -/
def featW : Table :=
  { nrows := 2, columns := [(ColName.str "x", ["5", "6"])] }

/-- Target produced by the fixture split with include-id-in-target true:
the two-column frame [id, y]. -/
def tgW : TargetResult :=
  TargetResult.frame
    { nrows := 2
      columns := [(ColName.str "id", ["1", "2"]), (ColName.str "y", ["0", "1"])] }

/-- Witness for C1 at the fixture input. -/
theorem c1_row_counts_equal_and_aligned_witness :
    featW.nrows = (parseCsv cfgW.has_header rowsW).nrows ∧
    tgW.rowCount = (parseCsv cfgW.has_header rowsW).nrows ∧
    featW.nrows = tgW.rowCount ∧
    (∀ p ∈ featW.columns, p ∈ (parseCsv cfgW.has_header rowsW).columns) ∧
    (∀ p ∈ tgW.cols, p ∈ (parseCsv cfgW.has_header rowsW).columns) :=
  c1_row_counts_equal_and_aligned cfgW rowsW true featW tgW "y" rfl (by rfl)

/-- Claim C2: for every successful split, the configured target column name
and (when a non-empty identifier name is configured, i.e. one that Python
treats as truthy) the identifier column name do not appear among Features'
column names, and the order of the remaining columns equals their order in
the loaded Table: Features' columns form a sublist of the Table's columns
containing every column whose label is neither the target nor the configured
identifier. -/
theorem c2_features_exclude_target_and_id (cfg : DataFetcher)
    (rows : List (List String)) (inc : Bool) (f : Table) (tg : TargetResult)
    (t : String) (ht : cfg.target_name = some t)
    (hs : get_features_and_target cfg (.ok rows) inc = .ok (f, tg)) :
    ColName.str t ∉ f.colNames ∧
    (∀ i, cfg.id_column = some i → i ≠ "" → ColName.str i ∉ f.colNames) ∧
    f.columns.Sublist (parseCsv cfg.has_header rows).columns ∧
    (∀ p ∈ (parseCsv cfg.has_header rows).columns,
        p.1 ≠ ColName.str t →
        (∀ i, cfg.id_column = some i → p.1 ≠ ColName.str i) →
        p ∈ f.columns) := by
  obtain ⟨hm, hd, -⟩ := split_ok_inv ht hs
  obtain ⟨-, hcols, -⟩ := drop_ok_inv hd
  have hdropt : ColName.str t ∈
      dropColsOf (parseCsv cfg.has_header rows) t cfg.id_column := by
    simp [dropColsOf]
  refine ⟨drop_not_mem hd _ hdropt, ?_, ?_, ?_⟩
  · intro i hi hne
    have hpres : ColName.str i ∈ (parseCsv cfg.has_header rows).colNames :=
      (missingCols_eq_nil_inv hm).2 i hi hne
    have hdropi : ColName.str i ∈
        dropColsOf (parseCsv cfg.has_header rows) t cfg.id_column := by
      simp [dropColsOf, hi, Table.hasCol, hne, hpres]
    exact drop_not_mem hd _ hdropi
  · rw [hcols]; exact List.filter_sublist _
  · intro p hp hpt hpi
    rw [hcols, List.mem_filter]
    refine ⟨hp, ?_⟩
    simp only [Bool.not_eq_true', decide_eq_false_iff_not]
    intro hmem
    rcases mem_dropColsOf hmem with h | ⟨i, hi, hl⟩
    · exact hpt h
    · exact hpi i hi hl

/-- Witness for C2 at the fixture input. -/
theorem c2_features_exclude_target_and_id_witness :
    ColName.str "y" ∉ featW.colNames ∧
    (∀ i, cfgW.id_column = some i → i ≠ "" → ColName.str i ∉ featW.colNames) ∧
    featW.columns.Sublist (parseCsv cfgW.has_header rowsW).columns ∧
    (∀ p ∈ (parseCsv cfgW.has_header rowsW).columns,
        p.1 ≠ ColName.str "y" →
        (∀ i, cfgW.id_column = some i → p.1 ≠ ColName.str i) →
        p ∈ featW.columns) :=
  c2_features_exclude_target_and_id cfgW rowsW true featW tgW "y" rfl (by rfl)

/-- Claim C3: for every successful split, when a non-empty identifier column
is configured and include-id-in-target is true, the Target is the two-column
frame whose first column holds the identifier values and whose second holds
the target values, both being the loaded Table's own column value sequences
(hence in original row order); in every other case the Target is the single
target column as a Series, again the Table's own target value sequence. -/
theorem c3_target_shape (cfg : DataFetcher) (rows : List (List String))
    (inc : Bool) (f : Table) (tg : TargetResult) (t : String)
    (ht : cfg.target_name = some t)
    (hs : get_features_and_target cfg (.ok rows) inc = .ok (f, tg)) :
    (∀ i, cfg.id_column = some i → i ≠ "" → inc = true →
        tg = TargetResult.frame
          { nrows := (parseCsv cfg.has_header rows).nrows
            columns :=
              [(ColName.str i, (parseCsv cfg.has_header rows).getVals (ColName.str i)),
               (ColName.str t, (parseCsv cfg.has_header rows).getVals (ColName.str t))] }) ∧
    ((¬ ∃ i, cfg.id_column = some i ∧ i ≠ "" ∧ inc = true) →
        tg = TargetResult.series (ColName.str t)
          ((parseCsv cfg.has_header rows).getVals (ColName.str t))) := by
  obtain ⟨hm, hd, htg⟩ := split_ok_inv ht hs
  obtain ⟨-, -, hpres⟩ := drop_ok_inv hd
  have htm : ColName.str t ∈ (parseCsv cfg.has_header rows).colNames :=
    hpres _ (by simp [dropColsOf])
  constructor
  · intro i hi hne hinc
    have him : ColName.str i ∈ (parseCsv cfg.has_header rows).colNames :=
      (missingCols_eq_nil_inv hm).2 i hi hne
    subst hinc
    rw [htg, hi]
    simp only [targetOf]
    rw [if_neg hne, select_pair _ _ _ him htm]
  · intro hno
    rw [htg]
    cases hidc : cfg.id_column with
    | none => cases inc <;> simp [targetOf]
    | some i =>
        cases hinc : inc with
        | false => simp [targetOf]
        | true =>
            have hie : i = "" := by
              by_contra hne
              exact hno ⟨i, hidc, hne, hinc⟩
            simp [targetOf, hie]

/-- Witness for C3 at the fixture input. -/
theorem c3_target_shape_witness :
    (∀ i, cfgW.id_column = some i → i ≠ "" → true = true →
        tgW = TargetResult.frame
          { nrows := (parseCsv cfgW.has_header rowsW).nrows
            columns :=
              [(ColName.str i, (parseCsv cfgW.has_header rowsW).getVals (ColName.str i)),
               (ColName.str "y", (parseCsv cfgW.has_header rowsW).getVals (ColName.str "y"))] }) ∧
    ((¬ ∃ i, cfgW.id_column = some i ∧ i ≠ "" ∧ true = true) →
        tgW = TargetResult.series (ColName.str "y")
          ((parseCsv cfgW.has_header rowsW).getVals (ColName.str "y"))) :=
  c3_target_shape cfgW rowsW true featW tgW "y" rfl (by rfl)

/-- Claim C4: for every loaded Table (so the target check has passed), if
some configured non-empty column name (target or identifier) is absent from
the Table's columns, split fails with the Missing-Column error whose payload
names every such missing column and carries the full list of columns actually
present, and no result is returned. -/
theorem c4_missing_column_error (cfg : DataFetcher) (rows : List (List String))
    (inc : Bool) (t : String) (ht : cfg.target_name = some t)
    (hex : ∃ s, (cfg.target_name = some s ∨ cfg.id_column = some s) ∧ s ≠ "" ∧
        ColName.str s ∉ (parseCsv cfg.has_header rows).colNames) :
    ∃ m, get_features_and_target cfg (.ok rows) inc =
        .error (.missingColumns m (parseCsv cfg.has_header rows).colNames) ∧
      ∀ s, (cfg.target_name = some s ∨ cfg.id_column = some s) → s ≠ "" →
        ColName.str s ∉ (parseCsv cfg.has_header rows).colNames → s ∈ m := by
  obtain ⟨s, hc, hne, habs⟩ := hex
  have hc' : some t = some s ∨ cfg.id_column = some s := by
    rcases hc with h | h
    · exact Or.inl (ht ▸ h)
    · exact Or.inr h
  have hsmem : s ∈ missingCols (some t) cfg.id_column
      (parseCsv cfg.has_header rows).colNames :=
    mem_missingCols hc' hne habs
  have hm : missingCols (some t) cfg.id_column
      (parseCsv cfg.has_header rows).colNames ≠ [] := by
    intro h
    rw [h] at hsmem
    cases hsmem
  refine ⟨_, split_missing_error ht hm, ?_⟩
  intro u hu hune huabs
  have hu' : some t = some u ∨ cfg.id_column = some u := by
    rcases hu with h | h
    · exact Or.inl (ht ▸ h)
    · exact Or.inr h
  exact mem_missingCols hu' hune huabs

/-- Witness for C4: target label is configured but the table only has
columns a and b. -/
theorem c4_missing_column_error_witness :
    ∃ m, get_features_and_target
        { csv_path := "d.csv", target_name := some "label", id_column := none }
        (.ok [["a", "b"], ["1", "2"]]) true =
      .error (.missingColumns m
        (parseCsv true [["a", "b"], ["1", "2"]]).colNames) ∧
      ∀ s, (some "label" = some s ∨ (none : Option String) = some s) → s ≠ "" →
        ColName.str s ∉ (parseCsv true [["a", "b"], ["1", "2"]]).colNames →
        s ∈ m :=
  c4_missing_column_error
    { csv_path := "d.csv", target_name := some "label", id_column := none }
    [["a", "b"], ["1", "2"]] true "label" rfl
    ⟨"label", Or.inl rfl, by decide, by decide⟩

/-- Claim C5, amended: the code rejects only an absent (None) target column
name; when the target name is None, split fails with the Configuration error
whatever the read outcome would have been, i.e. before any I/O matters. An
empty-string target name is NOT rejected by this check (see the
counterexample), contrary to the claim as stated. -/
theorem c5_none_target_config_error (cfg : DataFetcher) (fs : ReadOutcome)
    (inc : Bool) (h : cfg.target_name = none) :
    get_features_and_target cfg fs inc = .error .configError := by
  rw [get_features_and_target, h]

/-- Witness for the amended C5. -/
theorem c5_none_target_config_error_witness :
    get_features_and_target
      { csv_path := "missing.csv", target_name := none, id_column := none }
      ReadOutcome.notFound true = .error .configError :=
  c5_none_target_config_error
    { csv_path := "missing.csv", target_name := none, id_column := none }
    ReadOutcome.notFound true rfl

/-- Counterexample to C5 as stated: with the empty string as the configured
target column name (a name that is "not non-empty"), split does not raise the
Configuration error: it proceeds to the read, and the read's outcome (here:
file not found) decides the result, so I/O is attempted. -/
theorem c5_counterexample :
    get_features_and_target
        { csv_path := "data.csv", target_name := some "", id_column := none }
        ReadOutcome.notFound true = .error (.readError .fileNotFound) ∧
    get_features_and_target
        { csv_path := "data.csv", target_name := some "", id_column := none }
        ReadOutcome.notFound true ≠ .error .configError := by
  refine ⟨rfl, ?_⟩
  intro h
  cases h

/-- Claim C6 (the code's actual behavior, diverging from the claim): when a
non-empty identifier name is configured but absent from the loaded table and
the target is present, split raises the Missing-Column error for BOTH values
of include-id-in-target: the missing-columns check (lines 79-84) does not
look at include_id_in_target, so the absent identifier is never a no-op. -/
theorem c6_absent_id_always_errors :
    get_features_and_target
        { csv_path := "d.csv", target_name := some "label", id_column := some "id" }
        (.ok [["label", "amount"], ["0", "10"]]) true =
      .error (.missingColumns ["id"]
        [ColName.str "label", ColName.str "amount"]) ∧
    get_features_and_target
        { csv_path := "d.csv", target_name := some "label", id_column := some "id" }
        (.ok [["label", "amount"], ["0", "10"]]) false =
      .error (.missingColumns ["id"]
        [ColName.str "label", ColName.str "amount"]) :=
  ⟨rfl, rfl⟩

/-- Claim C7: _read_csv_file maps a missing file to the FileNotFoundError,
re-raises any other read/parse failure carrying its payload unchanged, and
returns a table only when the file actually parsed — never a default or
placeholder result. -/
theorem c7_read_error_propagation (cfg : DataFetcher) (fs : ReadOutcome) :
    (fs = .notFound → read_csv_file cfg fs = .error .fileNotFound) ∧
    (∀ m, fs = .failure m → read_csv_file cfg fs = .error (.other m)) ∧
    (∀ df, read_csv_file cfg fs = .ok df →
        ∃ rows, fs = .ok rows ∧ df = parseCsv cfg.has_header rows) := by
  refine ⟨?_, ?_, ?_⟩
  · intro h
    subst h
    rfl
  · intro m h
    subst h
    rfl
  · intro df h
    cases fs with
    | notFound => cases h
    | failure m => cases h
    | ok rows =>
        refine ⟨rows, rfl, ?_⟩
        have : read_csv_file cfg (.ok rows) = .ok (parseCsv cfg.has_header rows) := rfl
        rw [this] at h
        exact (Except.ok.inj h).symm

/-- Witness for C7 at concrete read outcomes. -/
theorem c7_read_error_propagation_witness :
    read_csv_file { csv_path := "missing.csv" } ReadOutcome.notFound =
      .error .fileNotFound ∧
    read_csv_file { csv_path := "bad.csv" } (ReadOutcome.failure "bad delimiter") =
      .error (.other "bad delimiter") ∧
    (∃ rows, ReadOutcome.ok [["a"], ["1"]] = ReadOutcome.ok rows ∧
        parseCsv ({ csv_path := "good.csv" } : DataFetcher).has_header [["a"], ["1"]] =
          parseCsv ({ csv_path := "good.csv" } : DataFetcher).has_header rows) :=
  ⟨(c7_read_error_propagation { csv_path := "missing.csv" } ReadOutcome.notFound).1 rfl,
   (c7_read_error_propagation { csv_path := "bad.csv" }
      (ReadOutcome.failure "bad delimiter")).2.1 "bad delimiter" rfl,
   (c7_read_error_propagation { csv_path := "good.csv" }
      (ReadOutcome.ok [["a"], ["1"]])).2.2 _ rfl⟩

/-- Indexing a list by positions 0..length-1 and mapping recovers the map. -/
theorem range_length_map_getD {α β : Type} (l : List α) (d : α) (f : α → β) :
    (List.range l.length).map (fun j => f (l.getD j d)) = l.map f := by
  induction l with
  | nil => simp
  | cons a tl ih =>
      rw [List.length_cons, List.range_succ_eq_map, List.map_cons, List.map_map]
      simp only [List.getD_cons_zero, Function.comp, List.getD_cons_succ]
      rw [List.map_cons]
      exact congrArg (f a :: ·) ih

/-- Claim C8: with the header flag false, every row of the file (including
the first) is a data row and the columns get the positional integer names
0..w-1; with the header flag true, the first row supplies the (string)
column names and only the remaining rows are data. -/
theorem c8_header_flag (r : List String) (body : List (List String)) :
    (parseCsv false (r :: body)).nrows = (r :: body).length ∧
    (parseCsv false (r :: body)).colNames = (List.range r.length).map ColName.nat ∧
    (parseCsv true (r :: body)).nrows = body.length ∧
    (parseCsv true (r :: body)).colNames = r.map ColName.str := by
  refine ⟨rfl, ?_, rfl, ?_⟩
  · simp [parseCsv, Table.colNames, List.map_map, Function.comp]
  · show ((List.range r.length).map fun j =>
        (ColName.str (r.getD j ""), body.map fun row => row.getD j "")).map Prod.fst =
      r.map ColName.str
    rw [List.map_map]
    exact range_length_map_getD r "" ColName.str

/-- Claim C9: _read_csv_file holds no cache and mutates no instance state:
running the load step twice from any state on an unchanged file yields the
identical result both times, and the state after the first call is the
original state. -/
theorem c9_load_idempotent_stateless (s : DataFetcher) (fs : ReadOutcome) :
    (read_csv_call (read_csv_call s fs).1 fs).2 = (read_csv_call s fs).2 ∧
    (read_csv_call s fs).1 = s :=
  ⟨rfl, rfl⟩

/-- Claim C10: with the header flag false and a non-empty string target name
configured, split on any successfully parsed file raises the Missing-Column
error, because headerless parsing assigns integer positional labels, which a
string label never equals. -/
theorem c10_headerless_always_missing (cfg : DataFetcher)
    (rows : List (List String)) (inc : Bool) (t : String)
    (ht : cfg.target_name = some t) (hne : t ≠ "")
    (hh : cfg.has_header = false) :
    ∃ m, get_features_and_target cfg (.ok rows) inc =
        .error (.missingColumns m (parseCsv cfg.has_header rows).colNames) ∧
      t ∈ m := by
  have hcn : (parseCsv false rows).colNames =
      (List.range (rows.headD []).length).map ColName.nat := by
    simp [parseCsv, Table.colNames, List.map_map, Function.comp]
  have habs : ColName.str t ∉ (parseCsv cfg.has_header rows).colNames := by
    rw [hh, hcn]
    intro hmem
    obtain ⟨j, -, hj⟩ := List.mem_map.mp hmem
    cases hj
  have hsmem : t ∈ missingCols (some t) cfg.id_column
      (parseCsv cfg.has_header rows).colNames :=
    mem_missingCols (Or.inl rfl) hne habs
  have hm : missingCols (some t) cfg.id_column
      (parseCsv cfg.has_header rows).colNames ≠ [] := by
    intro h
    rw [h] at hsmem
    cases hsmem
  exact ⟨_, split_missing_error ht hm, hsmem⟩

/-- Witness for C10: headerless three-row file, string target y. -/
theorem c10_headerless_always_missing_witness :
    ∃ m, get_features_and_target
        { csv_path := "d.csv", target_name := some "y", id_column := none,
          has_header := false }
        (.ok [["1", "2"], ["3", "4"], ["5", "6"]]) true =
      .error (.missingColumns m
        (parseCsv false [["1", "2"], ["3", "4"], ["5", "6"]]).colNames) ∧
      "y" ∈ m :=
  c10_headerless_always_missing
    { csv_path := "d.csv", target_name := some "y", id_column := none,
      has_header := false }
    [["1", "2"], ["3", "4"], ["5", "6"]] true "y" rfl (by decide) rfl

end FraudClf
